import Mathlib

set_option maxRecDepth 8000

/-!
Verification of the card-table builder in `src/arkhamdb.py`.

The script reads a JSON array of card records, flattens each record into a
row of four fields, and writes the rows as a single table.  This file is a
shallow embedding of that routine: JSON-derived Python values become the
inductive type `PyVal`, the per-record text construction becomes `card_text`,
the per-record row construction becomes `processCard`, and the whole run
(including the failure modes of opening and parsing the input file) becomes
`read_cards_json` over an abstract `InputFile`.  A result of `some table`
means the run reaches the final write and the output file holds `table`;
`none` means the run aborts with an uncaught exception before the write.

Model notes:
- JSON numbers are modelled as integers; fractional literals play no role in
  any claim below.
- Python dictionaries preserve insertion order and hold distinct keys, so a
  record is a list of key/value pairs; lists with repeated keys do not
  correspond to a Python dictionary, and the theorems below do not depend on
  repetition either way.
- `repr` of a string is modelled with the CPython quote-selection rule and
  the escapes for backslash, the quote character, newline, tab and carriage
  return; other escape forms are not modelled.  No claim depends on them.
-/

/-- A Python value obtained from `json.loads`: strings, numbers, booleans,
null, arrays and objects. -/
inductive PyVal where
  | str (s : String)
  | int (n : Int)
  | bool (b : Bool)
  | null
  | list (xs : List PyVal)
  | dict (kvs : List (String × PyVal))

/-- The apostrophe character, the default quote of Python `repr`. -/
def squote : Char := Char.ofNat 39

/-- CPython picks double quotes for `repr` of a string exactly when the
string holds an apostrophe and no double quote. -/
def pyQuoteChar (s : String) : Char :=
  if s.data.contains squote && !(s.data.contains '"') then '"' else squote

/-- Escapes of `repr` of a string: backslash, the chosen quote, newline,
tab, carriage return. -/
def pyEscapeChars (q : Char) : List Char → List Char
  | [] => []
  | c :: cs =>
    if c = '\\' || c = q then '\\' :: c :: pyEscapeChars q cs
    else if c = '\n' then '\\' :: 'n' :: pyEscapeChars q cs
    else if c = '\t' then '\\' :: 't' :: pyEscapeChars q cs
    else if c = '\r' then '\\' :: 'r' :: pyEscapeChars q cs
    else c :: pyEscapeChars q cs

/-- Python `repr` of a string: quote, escaped body, quote. -/
def pyStrQuote (s : String) : String :=
  ⟨pyQuoteChar s :: (pyEscapeChars (pyQuoteChar s) s.data ++ [pyQuoteChar s])⟩

mutual

/-- Python `repr` of a JSON-derived value. -/
def pyRepr : PyVal → String
  | .str s => pyStrQuote s
  | .int n => toString n
  | .bool true => "True"
  | .bool false => "False"
  | .null => "None"
  | .list xs => "[" ++ String.intercalate ", " (pyReprList xs) ++ "]"
  | .dict kvs => "\x7b" ++ String.intercalate ", " (pyReprDict kvs) ++ "\x7d"

/-- `repr` of the elements of a Python list. -/
def pyReprList : List PyVal → List String
  | [] => []
  | v :: vs => pyRepr v :: pyReprList vs

/-- `repr` of the entries of a Python dictionary. -/
def pyReprDict : List (String × PyVal) → List String
  | [] => []
  | (k, v) :: kvs => (pyStrQuote k ++ ": " ++ pyRepr v) :: pyReprDict kvs

end

/-- Python `str()` on a JSON-derived value: a string is returned as itself,
every other value is rendered as by `repr`. -/
def pyStr : PyVal → String
  | .str s => s
  | v => pyRepr v

/-- Removal of every non-overlapping occurrence of `pat` in a character
list, scanning left to right, as Python `replace(pat, "")` does.  The
counter carries the number of characters still to skip after a match. -/
def removeAllGo (pat : List Char) : List Char → Nat → List Char
  | [], _ => []
  | _ :: cs, Nat.succ k => removeAllGo pat cs k
  | c :: cs, 0 =>
    if pat.isPrefixOf (c :: cs) then removeAllGo pat cs (pat.length - 1)
    else c :: removeAllGo pat cs 0

/-- Python `s.replace(pat, "")` for a nonempty pattern.  The script only
replaces the two nonempty patterns `<b>` and `</b>`. -/
def pyRemove (s pat : String) : String := ⟨removeAllGo pat.data s.data 0⟩

/-- The whitespace characters removed by Python `strip()`: space, tab,
newline, carriage return, vertical tab, form feed. -/
def pyWhitespaceChar (c : Char) : Bool :=
  c = ' ' || c = '\t' || c = '\n' || c = '\r' || c = Char.ofNat 11 || c = Char.ofNat 12

/-- Python `s.strip()`: whitespace removed from both ends. -/
def pyStrip (s : String) : String :=
  ⟨((s.data.dropWhile pyWhitespaceChar).reverse.dropWhile pyWhitespaceChar).reverse⟩

/-- Lines 24 to 25 of the script:
`value = str(card[key])` followed by
`value = value.replace(...).replace(...).strip()`. -/
def transformValue (v : PyVal) : String :=
  pyStrip (pyRemove (pyRemove (pyStr v) "<b>") "</b>")

/-- The inline exclusion list of lines 22 to 23, in source order. -/
def exclusionList : List String :=
  ["deck_requirements", "deck_options", "double_sided", "octgn_id", "url",
   "imagesrc", "backimagesrc", "duplicated_by", "alternated_by",
   "illustrator", "errata_date", "restrictions", "spoiler"]

/-- Lines 20 to 26 of the script: the text of one card starts from the
literal prefix and, for each key of the record in insertion order that is
not in the exclusion list, appends the fragment
`", " + key + " : " + value`. -/
def card_text (card : List (String × PyVal)) : String :=
  card.foldl
    (fun acc kv =>
      if kv.1 ∈ exclusionList then acc
      else acc ++ ", " ++ kv.1 ++ " : " ++ transformValue kv.2)
    "Game Name : Arkham Horror"

/-- One row of the output table, the four fields of line 27. -/
structure TableRow where
  game_name : String
  expansion : PyVal
  id : PyVal
  text : String

/-- Line 27 of the script: the appended row is
`['Arkham Horror', card['pack_name'], card['code'], card_text]`.
Indexing a dictionary with a missing key raises `KeyError`, modelled as
`none`; the two column values are taken verbatim, with no conversion. -/
def buildRow (card : List (String × PyVal)) : Option TableRow :=
  match card.lookup "pack_name" with
  | none => none
  | some p =>
    match card.lookup "code" with
    | none => none
    | some c => some ⟨"Arkham Horror", p, c, card_text card⟩

/-- Processing of one element of the top-level array (lines 18 to 27).  An
element that is not a dictionary always aborts the run: iterating a string
or a list and then indexing it with the iterated key, or concatenating a
non-string key into the text, raises `TypeError`, and so does iterating a
number, boolean or null.  Modelled as `none`. -/
def processCard : PyVal → Option TableRow
  | .dict card => buildRow card
  | _ => none

/-- The loop of lines 17 to 27 over the elements of the array, in order,
aborting the whole run at the first failing element. -/
def processAll : List PyVal → Option (List TableRow)
  | [] => some []
  | v :: vs =>
    match processCard v with
    | none => none
    | some r => (processAll vs).map (fun rs => r :: rs)

/-- The column header created on line 12 and persisted on line 29 with
`index=False`: exactly these four named columns and no index column. -/
def outputColumns : List String := ["game_name", "expansion", "id", "text"]

/-- The output table: the named columns and the ordered rows. -/
structure Table where
  columns : List String
  rows : List TableRow

/-- The outcome of opening the fixed input path and calling `json.loads`
on its content: the file may be missing (`FileNotFoundError`), its content
may fail to parse (`json.JSONDecodeError`), or a value is produced. -/
inductive InputFile where
  | missing
  | invalid
  | json (top : PyVal)

/-- The whole run of `read_cards_json` (lines 10 to 29).  `some table`
means the final `to_parquet` write on line 29 is reached and the output
file holds `table`; `none` means an uncaught exception aborts the run
before the write, so no output file is produced.

The loop header `for i in range(len(card_data))` explains the non-array
branches: `len` of a string or dictionary succeeds, so an empty string or
empty dictionary skips the loop and still writes an empty table, while a
nonempty dictionary fails on `card_data[0]` (`KeyError`, integer index into
string-keyed dictionary) and a nonempty string fails inside the loop
(`card[key]`, string index into a string, `TypeError`); `len` of a number,
boolean or null raises `TypeError` at once. -/
def read_cards_json (input : InputFile) : Option Table :=
  match input with
  | .missing => none
  | .invalid => none
  | .json (.list cards) => (processAll cards).map (fun rows => ⟨outputColumns, rows⟩)
  | .json (.str s) => if s.data = [] then some ⟨outputColumns, []⟩ else none
  | .json (.dict []) => some ⟨outputColumns, []⟩
  | .json (.dict (_ :: _)) => none
  | .json _ => none

/-- `len(card_data)` on line 17: defined for lists, strings and
dictionaries, a `TypeError` otherwise. -/
def topLen : PyVal → Option Nat
  | .list xs => some xs.length
  | .str s => some s.data.length
  | .dict kvs => some kvs.length
  | _ => none

/-- The run together with the cosmetic progress display of `tqdm`: the
renderer stands for the formatting state of the progress bar and receives
the total and the current index.  The table is computed exactly as in
`read_cards_json`; the progress lines are display only. -/
def read_cards_json_run (render : Nat → Nat → String) (input : InputFile) :
    Option Table × List String :=
  (read_cards_json input,
    match input with
    | .json top =>
      match topLen top with
      | some n => (List.range n).map (render n)
      | none => []
    | _ => [])

/-- A well-formed card object: a dictionary holding the two keys read on
line 27. -/
def isCardObject : PyVal → Bool
  | .dict kvs => (kvs.lookup "pack_name").isSome && (kvs.lookup "code").isSome
  | _ => false

/-- Line 5 of the script; never used by any reachable code path. -/
def BASE_URL : String := "https://arkhamdb.com/"

/-- Line 6 of the script; never used by any reachable code path. -/
def CARD_API : String := "/api/public/card/"

/-- Line 7 of the script: the fixed input path. -/
def JSON_DATA : String := "data_extract/all_cards.json"

/-- Lines 31 to 32 of the script: a declared stub that performs no work. -/
def get_card_image : Unit := ()

/-- The renderer of one concrete progress-bar configuration. -/
def renderA : Nat → Nat → String := fun total i => toString i ++ "/" ++ toString total

/-- The renderer of another progress-bar configuration. -/
def renderB : Nat → Nat → String := fun _ _ => ""

/-- An occurrence of `pat` inside `a ++ b` lies inside `a`, lies inside `b`,
or splits into a nonempty suffix of `a` followed by a nonempty head
of `b`. -/
theorem splitOfInfixAppend {α : Type} {pat a b : List α} (h : pat <:+: a ++ b) :
    pat <:+: a ∨ pat <:+: b ∨
      ∃ s t, pat = s ++ t ∧ s ≠ [] ∧ t ≠ [] ∧ s <:+ a ∧ t <+: b := by
  obtain ⟨u, v, huv⟩ := h
  rw [List.append_assoc] at huv
  rcases List.append_eq_append_iff.mp huv with ⟨w, hw1, hw2⟩ | ⟨w, hw1, hw2⟩
  · rcases List.append_eq_append_iff.mp hw2 with ⟨x, hx1, hx2⟩ | ⟨x, hx1, hx2⟩
    · left
      exact ⟨u, x, by rw [hw1, hx1, List.append_assoc]⟩
    · by_cases hw : w = []
      · subst hw
        simp only [List.nil_append] at hx1
        right; left
        refine ⟨[], v, ?_⟩
        simp only [List.nil_append]
        rw [hx1, hx2]
      · by_cases hx : x = []
        · subst hx
          rw [List.append_nil] at hx1
          left
          refine ⟨u, [], ?_⟩
          rw [List.append_nil, hx1, hw1]
        · right; right
          exact ⟨w, x, hx1, hw, hx, ⟨u, hw1.symm⟩, ⟨v, hx2.symm⟩⟩
  · right; left
    refine ⟨w, v, ?_⟩
    rw [hw2, List.append_assoc]

/-- A nonempty pattern from which every element of `l` is absent does not
occur inside `l`. -/
theorem notInfixDisjoint {α : Type} {pat l : List α} (hne : pat ≠ [])
    (h : ∀ c ∈ l, c ∉ pat) : ¬ pat <:+: l := by
  intro hin
  obtain ⟨c, cs, rfl⟩ := List.exists_cons_of_ne_nil hne
  exact h c (hin.subset (List.mem_cons_self c cs)) (List.mem_cons_self c cs)

/-- If `b` starts with a character absent from the pattern, no occurrence of
the pattern in `a ++ b` crosses the boundary. -/
theorem notInfixAppendR {α : Type} {pat a b : List α} (c : α)
    (ha : ¬ pat <:+: a) (hb : ¬ pat <:+: b)
    (hc : b.head? = some c) (hcp : c ∉ pat) : ¬ pat <:+: a ++ b := by
  intro h
  rcases splitOfInfixAppend h with h1 | h1 | ⟨s, t, hst, _, ht, _, htb⟩
  · exact ha h1
  · exact hb h1
  · obtain ⟨t0, tt, rfl⟩ := List.exists_cons_of_ne_nil ht
    obtain ⟨r, hr⟩ := htb
    have hhead : b.head? = some t0 := by rw [← hr]; rfl
    rw [hc] at hhead
    injection hhead with h0
    apply hcp
    rw [hst, h0]
    exact List.mem_append.mpr (Or.inr (List.mem_cons_self _ _))

/-- If `a` ends with a character absent from the pattern, no occurrence of
the pattern in `(a ++ [c]) ++ b` crosses the boundary. -/
theorem notInfixAppendL {α : Type} {pat a b : List α} (c : α)
    (ha : ¬ pat <:+: a ++ [c]) (hb : ¬ pat <:+: b)
    (hcp : c ∉ pat) : ¬ pat <:+: (a ++ [c]) ++ b := by
  intro h
  rcases splitOfInfixAppend h with h1 | h1 | ⟨s, t, hst, hs, _, hsa, _⟩
  · exact ha h1
  · exact hb h1
  · obtain ⟨u, hu⟩ := hsa
    have hlast : s.getLast? = some c := by
      have h1 : (u ++ s).getLast? = s.getLast? := List.getLast?_append_of_ne_nil u hs
      rw [← h1, hu, List.getLast?_concat]
    apply hcp
    rw [hst]
    exact List.mem_append.mpr (Or.inl (List.mem_of_mem_getLast? (by rw [hlast]; rfl)))

/-- A pattern holding neither a comma, a space nor a colon and occurring
neither in `acc`, nor in the key, nor in the transformed value, does not
occur in the extended text `acc ++ ", " ++ k ++ " : " ++ tv`. -/
theorem notInfixFragmentStep {pat : List Char} (hne : pat ≠ [])
    (hco : (',' : Char) ∉ pat) (hsp : (' ' : Char) ∉ pat) (hcl : (':' : Char) ∉ pat)
    {acc k tv : List Char} (hacc : ¬ pat <:+: acc) (hk : ¬ pat <:+: k)
    (htv : ¬ pat <:+: tv) :
    ¬ pat <:+: (((acc ++ [',', ' ']) ++ k) ++ [' ', ':', ' ']) ++ tv := by
  have hsep1 : ¬ pat <:+: ([',', ' '] : List Char) := by
    refine notInfixDisjoint hne ?_
    intro c hc
    simp only [List.mem_cons, List.not_mem_nil, or_false] at hc
    rcases hc with rfl | rfl
    · exact hco
    · exact hsp
  have hsep2 : ¬ pat <:+: ([' ', ':', ' '] : List Char) := by
    refine notInfixDisjoint hne ?_
    intro c hc
    simp only [List.mem_cons, List.not_mem_nil, or_false] at hc
    rcases hc with rfl | rfl | rfl
    · exact hsp
    · exact hcl
    · exact hsp
  have e1 : acc ++ [',', ' '] = (acc ++ [',']) ++ [' '] := by simp
  have e2 : ((acc ++ [',', ' ']) ++ k) ++ [' ', ':', ' '] =
      (((acc ++ [',', ' ']) ++ k) ++ [' ', ':']) ++ [' '] := by simp
  rw [e2]
  apply notInfixAppendL ' ' ?_ htv hsp
  rw [← e2]
  apply notInfixAppendR ' ' ?_ hsep2 rfl hsp
  rw [e1]
  apply notInfixAppendL ' ' ?_ hk hsp
  rw [← e1]
  exact notInfixAppendR ',' hacc hsep1 rfl hco

/-- Over the text-building loop, a pattern holding neither a comma, a space
nor a colon and absent from the accumulator, from every non-excluded key
and from every non-excluded transformed value, stays absent from the
folded text. -/
theorem notInfixFoldText (pat : List Char) (hne : pat ≠ [])
    (hco : (',' : Char) ∉ pat) (hsp : (' ' : Char) ∉ pat) (hcl : (':' : Char) ∉ pat) :
    ∀ (card : List (String × PyVal)) (acc : String), ¬ pat <:+: acc.data →
      (∀ kv ∈ card, kv.1 ∉ exclusionList →
        ¬ pat <:+: kv.1.data ∧ ¬ pat <:+: (transformValue kv.2).data) →
      ¬ pat <:+:
        (card.foldl
          (fun acc kv =>
            if kv.1 ∈ exclusionList then acc
            else acc ++ ", " ++ kv.1 ++ " : " ++ transformValue kv.2)
          acc).data := by
  intro card
  induction card with
  | nil => intro acc hacc _; exact hacc
  | cons kv rest ih =>
    intro acc hacc h
    rw [List.foldl_cons]
    by_cases hex : kv.1 ∈ exclusionList
    · rw [if_pos hex]
      exact ih acc hacc (fun w hw => h w (List.mem_cons_of_mem _ hw))
    · rw [if_neg hex]
      obtain ⟨hk, htv⟩ := h kv (List.mem_cons_self _ _) hex
      refine ih _ ?_ (fun w hw => h w (List.mem_cons_of_mem _ hw))
      have hcomma : (", " : String).data = [',', ' '] := rfl
      have hcolon : (" : " : String).data = [' ', ':', ' '] := rfl
      simp only [String.data_append, hcomma, hcolon]
      exact notInfixFragmentStep hne hco hsp hcl hacc hk htv

/-- Absence of a separator-free pattern from the whole card text, given its
absence from the constant prefix, the non-excluded keys and the
non-excluded transformed values. -/
theorem notInfixCardText (pat : List Char) (hne : pat ≠ [])
    (hco : (',' : Char) ∉ pat) (hsp : (' ' : Char) ∉ pat) (hcl : (':' : Char) ∉ pat)
    (hstart : ¬ pat <:+: ("Game Name : Arkham Horror" : String).data)
    (card : List (String × PyVal))
    (h : ∀ kv ∈ card, kv.1 ∉ exclusionList →
      ¬ pat <:+: kv.1.data ∧ ¬ pat <:+: (transformValue kv.2).data) :
    ¬ pat <:+: (card_text card).data :=
  notInfixFoldText pat hne hco hsp hcl card "Game Name : Arkham Horror" hstart h

/-- The text-building loop only ever appends: the accumulator is a
prefix of the folded result. -/
theorem textStartAux :
    ∀ (card : List (String × PyVal)) (acc : String),
      acc.data <+:
        (card.foldl
          (fun acc kv =>
            if kv.1 ∈ exclusionList then acc
            else acc ++ ", " ++ kv.1 ++ " : " ++ transformValue kv.2)
          acc).data := by
  intro card
  induction card with
  | nil => intro acc; exact List.prefix_refl _
  | cons kv rest ih =>
    intro acc
    rw [List.foldl_cons]
    by_cases hex : kv.1 ∈ exclusionList
    · rw [if_pos hex]; exact ih acc
    · rw [if_neg hex]
      refine List.IsPrefix.trans ?_ (ih _)
      simp only [String.data_append]
      simp [List.append_assoc]

/-- The text of a successfully processed card is `card_text` of the very
record. -/
theorem textOfProcessCard (card : List (String × PyVal)) (row : TableRow)
    (h : processCard (.dict card) = some row) : row.text = card_text card := by
  have h' : buildRow card = some row := h
  unfold buildRow at h'
  cases hp : card.lookup "pack_name" with
  | none => rw [hp] at h'; cases h'
  | some p =>
    rw [hp] at h'
    cases hc : card.lookup "code" with
    | none => rw [hc] at h'; cases h'
    | some c =>
      rw [hc] at h'
      injection h' with h'
      rw [← h']

/-- A record that is not a well-formed card object aborts its iteration. -/
theorem processCardNoneOfBad (v : PyVal) (h : isCardObject v = false) :
    processCard v = none := by
  cases v with
  | dict kvs =>
    simp only [isCardObject, Bool.and_eq_false_iff] at h
    show buildRow kvs = none
    unfold buildRow
    cases hp : kvs.lookup "pack_name" with
    | none => rfl
    | some p =>
      cases hc : kvs.lookup "code" with
      | none => rfl
      | some c =>
        exfalso
        rcases h with h | h
        · rw [hp] at h; simp at h
        · rw [hc] at h; simp at h
  | str s => rfl
  | int n => rfl
  | bool b => rfl
  | null => rfl
  | list xs => rfl

/-- A failing element anywhere in the array makes the whole loop abort. -/
theorem processAllNoneOfMem (cards : List PyVal) (v : PyVal) (hv : v ∈ cards)
    (hn : processCard v = none) : processAll cards = none := by
  induction cards with
  | nil => cases hv
  | cons w ws ih =>
    rcases List.mem_cons.mp hv with h | h
    · subst h; simp [processAll, hn]
    · cases hw : processCard w with
      | none => simp [processAll, hw]
      | some r => simp [processAll, hw, ih h]

/-- On an array of well-formed card objects the loop succeeds, one row per
element, in order. -/
theorem processAllSome (cards : List PyVal)
    (h : ∀ v ∈ cards, isCardObject v = true) :
    ∃ rows, processAll cards = some rows ∧ rows.length = cards.length ∧
      ∀ i : Nat, rows.get? i = (cards.get? i).bind processCard := by
  induction cards with
  | nil => exact ⟨[], rfl, rfl, fun i => by cases i <;> rfl⟩
  | cons v vs ih =>
    have hv := h v (List.mem_cons_self _ _)
    have hr : ∃ r, processCard v = some r := by
      cases v with
      | dict kvs =>
        simp only [isCardObject, Bool.and_eq_true, Option.isSome_iff_exists] at hv
        obtain ⟨⟨p, hp⟩, ⟨c, hc⟩⟩ := hv
        refine ⟨⟨"Arkham Horror", p, c, card_text kvs⟩, ?_⟩
        show buildRow kvs = some _
        unfold buildRow
        rw [hp, hc]
      | str s => simp [isCardObject] at hv
      | int n => simp [isCardObject] at hv
      | bool b => simp [isCardObject] at hv
      | null => simp [isCardObject] at hv
      | list xs => simp [isCardObject] at hv
    obtain ⟨r, hr⟩ := hr
    obtain ⟨rows, h1, h2, h3⟩ := ih (fun w hw => h w (List.mem_cons_of_mem _ hw))
    refine ⟨r :: rows, ?_, ?_, ?_⟩
    · simp [processAll, hr, h1]
    · simp [h2]
    · intro i
      cases i with
      | zero => simp [hr]
      | succ n => simpa using h3 n

/-- C1: on a valid input array, every element a card object, the run
succeeds and the output table has exactly as many rows as the array has
elements, the row at index i being derived from the element at index i;
no row is dropped, added, deduplicated, filtered or reordered. -/
theorem c1_rows_preserved (cards : List PyVal)
    (h : ∀ v ∈ cards, isCardObject v = true) :
    ∃ rows, read_cards_json (.json (.list cards)) = some ⟨outputColumns, rows⟩ ∧
      rows.length = cards.length ∧
      ∀ i : Nat, rows.get? i = (cards.get? i).bind processCard := by
  obtain ⟨rows, h1, h2, h3⟩ := processAllSome cards h
  refine ⟨rows, ?_, h2, h3⟩
  show (processAll cards).map _ = _
  rw [h1]
  rfl

/-- Witness for C1 at a concrete two-element array. -/
theorem c1_witness :
    (∀ v ∈ [PyVal.dict [("pack_name", PyVal.str "Core Set"), ("code", PyVal.str "01001")],
            PyVal.dict [("code", PyVal.str "01002"), ("pack_name", PyVal.str "Core Set")]],
        isCardObject v = true) ∧
    (∃ rows,
      read_cards_json (.json (.list
        [PyVal.dict [("pack_name", PyVal.str "Core Set"), ("code", PyVal.str "01001")],
         PyVal.dict [("code", PyVal.str "01002"), ("pack_name", PyVal.str "Core Set")]])) =
        some ⟨outputColumns, rows⟩ ∧
      rows.length =
        [PyVal.dict [("pack_name", PyVal.str "Core Set"), ("code", PyVal.str "01001")],
         PyVal.dict [("code", PyVal.str "01002"), ("pack_name", PyVal.str "Core Set")]].length ∧
      ∀ i : Nat, rows.get? i =
        ([PyVal.dict [("pack_name", PyVal.str "Core Set"), ("code", PyVal.str "01001")],
          PyVal.dict [("code", PyVal.str "01002"), ("pack_name", PyVal.str "Core Set")]].get? i).bind
          processCard) :=
  ⟨by decide, c1_rows_preserved _ (by decide)⟩

/-- C2: a key of the exclusion list is skipped by the text-building loop
wherever it sits in the record, so it contributes nothing to the text. -/
theorem c2_excluded_key_skipped (k : String) (v : PyVal)
    (pre post : List (String × PyVal)) (h : k ∈ exclusionList) :
    card_text (pre ++ (k, v) :: post) = card_text (pre ++ post) := by
  unfold card_text
  rw [List.foldl_append, List.foldl_append, List.foldl_cons, if_pos h]

/-- Witness for C2 with the excluded key spoiler. -/
theorem c2_witness :
    ("spoiler" ∈ exclusionList) ∧
    card_text ([("name", PyVal.str "Roland")] ++ ("spoiler", PyVal.bool true) :: []) =
      card_text ([("name", PyVal.str "Roland")] ++ []) :=
  ⟨by decide, c2_excluded_key_skipped "spoiler" (PyVal.bool true) _ _ (by decide)⟩

/-- C3 as stated is false: a single removal pass can recompose a tag.  The
value of the non-excluded key name is the string with characters
left-angle left-angle b right-angle b right-angle, whose representation
holds the opening bold tag, yet the produced text still holds that tag. -/
theorem c3_counterexample :
    ("<b>".data <:+: (pyStr (PyVal.str "<<b>b>")).data) ∧
    processCard (.dict [("pack_name", PyVal.str "P"), ("code", PyVal.str "C"),
        ("name", PyVal.str "<<b>b>")]) =
      some ⟨"Arkham Horror", PyVal.str "P", PyVal.str "C",
        "Game Name : Arkham Horror, pack_name : P, code : C, name : <b>"⟩ ∧
    ("<b>".data <:+:
      ("Game Name : Arkham Horror, pack_name : P, code : C, name : <b>" : String).data) :=
  ⟨by decide, rfl, by decide⟩

/-- C3 (amended): whenever no non-excluded key name holds a bold tag and
each non-excluded value, after the two removal passes and the trim,
holds neither tag, the text of the produced row holds neither tag. -/
theorem c3_tags_absent (card : List (String × PyVal)) (row : TableRow)
    (hrow : processCard (.dict card) = some row)
    (h : ∀ kv ∈ card, kv.1 ∉ exclusionList →
      (¬ "<b>".data <:+: kv.1.data ∧ ¬ "</b>".data <:+: kv.1.data) ∧
      (¬ "<b>".data <:+: (transformValue kv.2).data ∧
       ¬ "</b>".data <:+: (transformValue kv.2).data)) :
    ¬ "<b>".data <:+: row.text.data ∧ ¬ "</b>".data <:+: row.text.data := by
  rw [textOfProcessCard card row hrow]
  constructor
  · refine notInfixCardText _ (by decide) (by decide) (by decide) (by decide)
      (by decide) card ?_
    intro kv hkv hex
    exact ⟨((h kv hkv hex).1).1, ((h kv hkv hex).2).1⟩
  · refine notInfixCardText _ (by decide) (by decide) (by decide) (by decide)
      (by decide) card ?_
    intro kv hkv hex
    exact ⟨((h kv hkv hex).1).2, ((h kv hkv hex).2).2⟩

/-- Witness for the amended C3: a value whose bold markup is removed
cleanly yields a text free of both tags. -/
theorem c3_witness :
    (∀ kv ∈ [("pack_name", PyVal.str "<b>Core</b>"), ("code", PyVal.str "01001")],
        kv.1 ∉ exclusionList →
        (¬ "<b>".data <:+: kv.1.data ∧ ¬ "</b>".data <:+: kv.1.data) ∧
        (¬ "<b>".data <:+: (transformValue kv.2).data ∧
         ¬ "</b>".data <:+: (transformValue kv.2).data)) ∧
    (¬ "<b>".data <:+:
        (TableRow.mk "Arkham Horror" (PyVal.str "<b>Core</b>") (PyVal.str "01001")
          "Game Name : Arkham Horror, pack_name : Core, code : 01001").text.data ∧
     ¬ "</b>".data <:+:
        (TableRow.mk "Arkham Horror" (PyVal.str "<b>Core</b>") (PyVal.str "01001")
          "Game Name : Arkham Horror, pack_name : Core, code : 01001").text.data) :=
  ⟨by decide,
   c3_tags_absent
     [("pack_name", PyVal.str "<b>Core</b>"), ("code", PyVal.str "01001")]
     (TableRow.mk "Arkham Horror" (PyVal.str "<b>Core</b>") (PyVal.str "01001")
       "Game Name : Arkham Horror, pack_name : Core, code : 01001")
     rfl (by decide)⟩

/-- C4: the expansion column is the pack_name value of the record and the
id column is its code value, copied verbatim, untouched by the
text-building transformation. -/
theorem c4_columns_verbatim (card : List (String × PyVal)) (p c : String)
    (hp : card.lookup "pack_name" = some (.str p))
    (hc : card.lookup "code" = some (.str c)) :
    processCard (.dict card) =
      some ⟨"Arkham Horror", .str p, .str c, card_text card⟩ := by
  show buildRow card = _
  unfold buildRow
  rw [hp, hc]

/-- Witness for C4: values carrying markup and outer whitespace reach the
two columns unchanged. -/
theorem c4_witness :
    ([("pack_name", PyVal.str " <b>Core</b> "), ("code", PyVal.str " 01 ")].lookup
        "pack_name" = some (PyVal.str " <b>Core</b> ")) ∧
    ([("pack_name", PyVal.str " <b>Core</b> "), ("code", PyVal.str " 01 ")].lookup
        "code" = some (PyVal.str " 01 ")) ∧
    processCard (.dict [("pack_name", PyVal.str " <b>Core</b> "),
        ("code", PyVal.str " 01 ")]) =
      some ⟨"Arkham Horror", PyVal.str " <b>Core</b> ", PyVal.str " 01 ",
        card_text [("pack_name", PyVal.str " <b>Core</b> "),
          ("code", PyVal.str " 01 ")]⟩ :=
  ⟨rfl, rfl, c4_columns_verbatim _ _ _ rfl rfl⟩

/-- C5: the text of every produced row starts with the literal
Game Name : Arkham Horror. -/
theorem c5_text_constant_start (v : PyVal) (row : TableRow)
    (h : processCard v = some row) :
    ("Game Name : Arkham Horror" : String).data <+: row.text.data := by
  cases v with
  | dict card =>
    rw [textOfProcessCard card row h]
    exact textStartAux card "Game Name : Arkham Horror"
  | str s => cases h
  | int n => cases h
  | bool b => cases h
  | null => cases h
  | list xs => cases h

/-- Witness for C5 at a concrete card. -/
theorem c5_witness :
    (processCard (.dict [("pack_name", PyVal.str "P"), ("code", PyVal.str "C")]) =
      some ⟨"Arkham Horror", PyVal.str "P", PyVal.str "C",
        "Game Name : Arkham Horror, pack_name : P, code : C"⟩) ∧
    ("Game Name : Arkham Horror" : String).data <+:
      (TableRow.mk "Arkham Horror" (PyVal.str "P") (PyVal.str "C")
        "Game Name : Arkham Horror, pack_name : P, code : C").text.data :=
  ⟨rfl,
   c5_text_constant_start
     (.dict [("pack_name", PyVal.str "P"), ("code", PyVal.str "C")])
     (TableRow.mk "Arkham Horror" (PyVal.str "P") (PyVal.str "C")
       "Game Name : Arkham Horror, pack_name : P, code : C")
     rfl⟩

/-- C6 (amended): a missing input file, invalid JSON, a top-level value
that is neither an array nor an empty object nor an empty string, or an
array holding an element that is not a card object, all abort the run with
no output file; an empty object or empty string at top level instead
succeeds with an empty table. -/
theorem c6_failures_abort (input : InputFile)
    (h : input = .missing ∨ input = .invalid ∨
      (∃ t, input = .json t ∧ (∀ cards, t ≠ PyVal.list cards) ∧
        t ≠ PyVal.dict [] ∧ t ≠ PyVal.str "") ∨
      (∃ cards v, input = .json (.list cards) ∧ v ∈ cards ∧
        isCardObject v = false)) :
    read_cards_json input = none := by
  rcases h with rfl | rfl | ⟨t, rfl, hnl, hnd, hns⟩ | ⟨cards, v, rfl, hv, hbad⟩
  · rfl
  · rfl
  · cases t with
    | list xs => exact absurd rfl (hnl xs)
    | str s =>
      cases s with
      | mk data =>
        show (if data = [] then _ else none) = none
        by_cases hd : data = []
        · subst hd
          exact absurd rfl hns
        · rw [if_neg hd]
    | dict kvs =>
      cases kvs with
      | nil => exact absurd rfl hnd
      | cons a as => rfl
    | int n => rfl
    | bool b => rfl
    | null => rfl
  · show (processAll cards).map _ = none
    rw [processAllNoneOfMem cards v hv (processCardNoneOfBad v hbad)]
    rfl

/-- C6 as stated is false: an empty JSON object at top level is not an
array, yet the run reaches the final write and an empty output file is
produced. -/
theorem c6_counterexample :
    read_cards_json (.json (.dict [])) = some ⟨outputColumns, []⟩ := rfl

/-- Witness for the amended C6: an array holding a number aborts. -/
theorem c6_witness : read_cards_json (.json (.list [PyVal.int 5])) = none :=
  c6_failures_abort _
    (Or.inr (Or.inr (Or.inr
      ⟨[PyVal.int 5], PyVal.int 5, rfl, List.mem_cons_self _ _, rfl⟩)))

/-- C7: the documented one-card example produces exactly the documented
row, with spoiler excluded and code and pack_name both in their columns
and inside the text, in record key order. -/
theorem c7_example_row :
    read_cards_json (.json (.list [.dict
      [("code", .str "01001"), ("pack_name", .str "Core Set"),
       ("name", .str "Roland Banks"), ("spoiler", .bool true)]])) =
    some ⟨outputColumns,
      [⟨"Arkham Horror", .str "Core Set", .str "01001",
        "Game Name : Arkham Horror, code : 01001, pack_name : Core Set, name : Roland Banks"⟩]⟩ :=
  rfl

/-- C8: the empty input array succeeds with a zero-row table carrying
exactly the four named columns and no index column. -/
theorem c8_empty_array :
    read_cards_json (.json (.list [])) = some ⟨outputColumns, []⟩ ∧
    outputColumns = ["game_name", "expansion", "id", "text"] := ⟨rfl, rfl⟩

/-- C9: appending a non-excluded key to a record extends the text by the
fragment comma-space, the key verbatim, space-colon-space, and the
transformed value; only the value is transformed, the key is appended
with no markup removal, no trimming and no escaping. -/
theorem c9_key_verbatim (card : List (String × PyVal)) (k : String) (v : PyVal)
    (h : k ∉ exclusionList) :
    card_text (card ++ [(k, v)]) =
      card_text card ++ ", " ++ k ++ " : " ++ transformValue v := by
  unfold card_text
  rw [List.foldl_append, List.foldl_cons, if_neg h, List.foldl_nil]

/-- Witness for C9: a key holding a bold tag and a comma-space appears
unchanged in the text while its value is stripped and trimmed. -/
theorem c9_witness :
    ("x<b>, y" ∉ exclusionList) ∧
    card_text ([] ++ [("x<b>, y", PyVal.str " <b>hi</b> ")]) =
      card_text [] ++ ", " ++ "x<b>, y" ++ " : " ++
        transformValue (PyVal.str " <b>hi</b> ") :=
  ⟨by decide, c9_key_verbatim [] "x<b>, y" (PyVal.str " <b>hi</b> ") (by decide)⟩

/-- C10: the run is deterministic; over input files with identical content
the produced table is identical, whatever the cosmetic progress
rendering. -/
theorem c10_deterministic (r1 r2 : Nat → Nat → String) (i1 i2 : InputFile)
    (h : i1 = i2) :
    (read_cards_json_run r1 i1).1 = (read_cards_json_run r2 i2).1 := by
  subst h
  rfl

/-- Witness for C10 with two distinct progress renderers. -/
theorem c10_witness :
    (read_cards_json_run renderA
      (.json (.list [.dict [("pack_name", PyVal.str "P"), ("code", PyVal.str "C")]]))).1 =
    (read_cards_json_run renderB
      (.json (.list [.dict [("pack_name", PyVal.str "P"), ("code", PyVal.str "C")]]))).1 :=
  c10_deterministic renderA renderB _ _ rfl
